import Mathlib

/-!
# Verification of the Agentic Development Workflow state machine

Shallow embedding of the workflow engine from the repository sources:

* `modular-architecture.py` — `create_development_workflow` (the transition
  table: `add_edge` / `add_conditional_edges` calls) and the `WorkflowState`
  pydantic schema;
* `development-workflow-agent.py` — the step handlers (`collect_requirements`,
  `generate_user_stories`, the review gates, the fix/revise steps,
  `deployment`, `monitoring`, `maintenance`) and `add_to_history`.

Python dictionaries are modelled as association lists over `String` keys,
parsed JSON values as the inductive `Val`, and each handler as a function
`WState → Option Val → String → Option WState` where the `Option Val`
argument is the (possibly failing) model-client invocation result, the
`String` argument is the wall-clock timestamp read by `add_to_history`, and
a `none` result models an exception propagating out of the handler.
-/

/-- A parsed JSON value as produced by `JsonOutputParser` / carried in the
Python state dict. -/
inductive Val where
  | vnull : Val
  | vbool : Bool → Val
  | vnum : Int → Val
  | vstr : String → Val
  | vlist : List Val → Val
  | vdict : List (String × Val) → Val

/-- Python truthiness of a value, as used by `if result["approved"]:` and the
conditional-edge lambdas. -/
def truthy : Val → Bool
  | .vnull => false
  | .vbool b => b
  | .vnum n => n != 0
  | .vstr s => s ≠ ""
  | .vlist xs => ¬ xs.isEmpty
  | .vdict kvs => ¬ kvs.isEmpty

/-- Dictionary lookup (`d[k]` / `d.get(k)`): the value at the first matching
key, if any. -/
def alookup {α : Type} (kvs : List (String × α)) (k : String) : Option α :=
  (kvs.find? (fun p => p.1 == k)).map (·.2)

/-- Dictionary key assignment (`d[k] = v`): overwrite the existing entry for
`k`, or append a new one. -/
def ainsert {α : Type} : List (String × α) → String → α → List (String × α)
  | [], k, v => [(k, v)]
  | (k', v') :: rest, k, v =>
    if k' == k then (k, v) :: rest else (k', v') :: ainsert rest k v

/-- Python `d.get(k, default)` on a dictionary of `Val`s. -/
def dget (kvs : List (String × Val)) (k : String) (d : Val) : Val :=
  (alookup kvs k).getD d

/-- Python `len` on the values it is applied to in the sources. -/
def vlen : Val → Nat
  | .vlist xs => xs.length
  | .vdict kvs => kvs.length
  | .vstr s => s.length
  | _ => 0

/-- Rendering of a value inside an f-string message. -/
def vshow : Val → String
  | .vnull => "None"
  | .vbool b => if b then "True" else "False"
  | .vnum n => toString n
  | .vstr s => s
  | .vlist _ => "[...]"
  | .vdict _ => "\x7b...\x7d"

/-- One entry of the conversation history, as appended by `add_to_history`. -/
structure HEntry where
  actor : String
  message : String
  timestamp : String
deriving Repr, DecidableEq

/-- The workflow state.  The first ten fields are exactly the declared fields
of the `WorkflowState` pydantic schema (`development-workflow-agent.py`
lines 21–32); `extra` models dictionary keys written by handlers that are
*not* declared in the schema (`deployment_plan`, `monitoring_results`). -/
structure WState where
  user_inputs : List (String × Val)
  user_stories : Val
  design_documents : List (String × Val)
  code : List (String × Val)
  test_cases : Val
  qa_results : List (String × Val)
  maintenance_notes : List String
  current_step : String
  history : List HEntry
  feedback : List (String × List (String × Val))
  extra : List (String × Val)

/-- The declared field names of the `WorkflowState` schema. -/
def workflowStateFields : List String :=
  ["user_inputs", "user_stories", "design_documents", "code", "test_cases",
   "qa_results", "maintenance_notes", "current_step", "history", "feedback"]

/-- The initial state: every collection empty, `current_step` at the entry
step (schema defaults). -/
def initState : WState :=
  { user_inputs := []
    user_stories := .vlist []
    design_documents := []
    code := []
    test_cases := .vlist []
    qa_results := []
    maintenance_notes := []
    current_step := "collect_requirements"
    history := []
    feedback := []
    extra := [] }

/-! ## The transition table

`create_development_workflow` in `modular-architecture.py`: the `add_edge`
calls give unconditional successors, the `add_conditional_edges` calls give
decision lambdas of the shape

  `state["feedback"].get(<key>, {}).get("approved", False)`

(and `state["qa_results"].get("passed", False)` for the QA gate). -/

/-- The scrutinee of a review gate's decision lambda:
`state["feedback"].get(k, {}).get("approved", False)` under Python
truthiness. -/
def feedbackApproved (s : WState) (k : String) : Bool :=
  truthy (dget ((alookup s.feedback k).getD []) "approved" (.vbool false))

/-- The scrutinee of the QA gate's decision lambda:
`state["qa_results"].get("passed", False)` under Python truthiness. -/
def qaPassed (s : WState) : Bool :=
  truthy (dget s.qa_results "passed" (.vbool false))

/-- The transition table of `create_development_workflow`: for a registered
step, the next step resolved from the given state; `none` for an
unregistered step identifier. -/
def resolveNext (name : String) (s : WState) : Option String :=
  match name with
  | "collect_requirements" => some "generate_user_stories"
  | "generate_user_stories" => some "product_owner_review"
  | "product_owner_review" =>
      some (if feedbackApproved s "product_owner"
            then "create_design_documents" else "revise_user_stories")
  | "revise_user_stories" => some "product_owner_review"
  | "create_design_documents" => some "design_review"
  | "design_review" =>
      some (if feedbackApproved s "design_review"
            then "generate_code" else "revise_design_documents")
  | "revise_design_documents" => some "design_review"
  | "generate_code" => some "code_review"
  | "code_review" =>
      some (if feedbackApproved s "code_review"
            then "security_review" else "fix_code_after_review")
  | "fix_code_after_review" => some "code_review"
  | "security_review" =>
      some (if feedbackApproved s "security_review"
            then "write_test_cases" else "fix_code_after_security")
  | "fix_code_after_security" => some "security_review"
  | "write_test_cases" => some "test_cases_review"
  | "test_cases_review" =>
      some (if feedbackApproved s "test_cases_review"
            then "qa_testing" else "fix_test_cases")
  | "fix_test_cases" => some "test_cases_review"
  | "qa_testing" =>
      some (if qaPassed s then "deployment" else "fix_code_after_qa")
  | "fix_code_after_qa" => some "qa_testing"
  | "deployment" => some "monitoring"
  | "monitoring" => some "maintenance"
  | "maintenance" => some "collect_requirements"
  | _ => none

/-- The step identifiers registered by the `add_node` calls of
`create_development_workflow`. -/
def registeredSteps : List String :=
  ["collect_requirements", "generate_user_stories", "product_owner_review",
   "revise_user_stories", "create_design_documents", "design_review",
   "revise_design_documents", "generate_code", "code_review",
   "fix_code_after_review", "security_review", "fix_code_after_security",
   "write_test_cases", "test_cases_review", "fix_test_cases", "qa_testing",
   "fix_code_after_qa", "deployment", "monitoring", "maintenance"]

/-- The six fix/revise steps. -/
def fixSteps : List String :=
  ["revise_user_stories", "revise_design_documents", "fix_code_after_review",
   "fix_code_after_security", "fix_test_cases", "fix_code_after_qa"]

/-! ## Step handlers

Embedded from `development-workflow-agent.py`.  Each handler performs its
state reads in source order, then the model invocation (argument `mres`,
`none` when `chain.invoke` raises), then its state writes; all writes occur
textually after the invocation in the source, so a failed invocation
produces `none` with no mutation.  `ts` is the `datetime.now().isoformat()`
timestamp consumed by `add_to_history`. -/

/-- `collect_requirements` (lines 45–68): stores the model response content
as the requirements document, appends one history entry and advances to
`generate_user_stories`. -/
def collect_requirements (s : WState) (mres : Option Val) (ts : String) :
    Option WState :=
  match mres with
  | some (.vstr content) =>
      some { s with
        user_inputs := ainsert s.user_inputs "requirements_document" (.vstr content)
        history := s.history ++
          [⟨"ai", "Requirements collected: " ++ content.take 100 ++ "...", ts⟩]
        current_step := "generate_user_stories" }
  | _ => none

/-- `generate_user_stories` (lines 70–104): replaces `user_stories` with
`result["user_stories"]`, appends one history entry, advances to
`product_owner_review`. -/
def generate_user_stories (s : WState) (mres : Option Val) (ts : String) :
    Option WState :=
  match mres with
  | some (.vdict result) =>
      match alookup result "user_stories" with
      | some (.vlist stories) =>
          some { s with
            user_stories := .vlist stories
            history := s.history ++
              [⟨"ai", "Generated " ++ toString stories.length ++ " user stories", ts⟩]
            current_step := "product_owner_review" }
      | _ => none
  | _ => none

/-- `product_owner_review` (lines 106–136): stores the review result under
`feedback["product_owner"]`, appends one history entry and branches on
`result["approved"]`. -/
def product_owner_review (s : WState) (mres : Option Val) (ts : String) :
    Option WState :=
  match mres with
  | some (.vdict result) =>
      match alookup result "approved" with
      | some ap =>
          some { s with
            feedback := ainsert s.feedback "product_owner" result
            history := s.history ++
              [⟨"ai", "Product owner review: " ++
                (if truthy ap then "Approved" else "Needs revision"), ts⟩]
            current_step :=
              if truthy ap then "create_design_documents" else "revise_user_stories" }
      | none => none
  | _ => none

/-- `revise_user_stories` (lines 138–169): reads
`state["feedback"]["product_owner"]` (raising if absent), then replaces
`user_stories` wholesale with `result["user_stories"]`, appends one history
entry and returns to `product_owner_review`. -/
def revise_user_stories (s : WState) (mres : Option Val) (ts : String) :
    Option WState :=
  match alookup s.feedback "product_owner" with
  | none => none
  | some _fb =>
      match mres with
      | some (.vdict result) =>
          match alookup result "user_stories" with
          | some us =>
              some { s with
                user_stories := us
                history := s.history ++
                  [⟨"ai", "User stories revised based on feedback", ts⟩]
                current_step := "product_owner_review" }
          | none => none
      | _ => none

/-- `create_design_documents` (lines 171–205): stores the whole parsed result
as `design_documents`, appends one history entry, advances to
`design_review`. -/
def create_design_documents (s : WState) (mres : Option Val) (ts : String) :
    Option WState :=
  match mres with
  | some (.vdict result) =>
      some { s with
        design_documents := result
        history := s.history ++ [⟨"ai", "Design documents created", ts⟩]
        current_step := "design_review" }
  | _ => none

/-- `design_review` (lines 207–238): stores the review result under
`feedback["design_review"]`, appends one history entry and branches on
`result["approved"]`. -/
def design_review (s : WState) (mres : Option Val) (ts : String) :
    Option WState :=
  match mres with
  | some (.vdict result) =>
      match alookup result "approved" with
      | some ap =>
          some { s with
            feedback := ainsert s.feedback "design_review" result
            history := s.history ++
              [⟨"ai", "Design review: " ++
                (if truthy ap then "Approved" else "Needs revision"), ts⟩]
            current_step :=
              if truthy ap then "generate_code" else "revise_design_documents" }
      | none => none
  | _ => none

/-- `revise_design_documents` (lines 240–267): reads
`state["feedback"]["design_review"]` (raising if absent), replaces
`design_documents`, appends one history entry, returns to `design_review`. -/
def revise_design_documents (s : WState) (mres : Option Val) (ts : String) :
    Option WState :=
  match alookup s.feedback "design_review" with
  | none => none
  | some _fb =>
      match mres with
      | some (.vdict result) =>
          some { s with
            design_documents := result
            history := s.history ++
              [⟨"ai", "Design documents revised based on feedback", ts⟩]
            current_step := "design_review" }
      | _ => none

/-- `generate_code` (lines 269–295): stores the whole parsed result as
`code`, appends one history entry, advances to `code_review`. -/
def generate_code (s : WState) (mres : Option Val) (ts : String) :
    Option WState :=
  match mres with
  | some (.vdict result) =>
      some { s with
        code := result
        history := s.history ++ [⟨"ai", "Code generated for implementation", ts⟩]
        current_step := "code_review" }
  | _ => none

/-- `code_review` (lines 297–334): stores the review result under
`feedback["code_review"]`, appends one history entry and branches on
`result["approved"]`. -/
def code_review (s : WState) (mres : Option Val) (ts : String) :
    Option WState :=
  match mres with
  | some (.vdict result) =>
      match alookup result "approved" with
      | some ap =>
          some { s with
            feedback := ainsert s.feedback "code_review" result
            history := s.history ++
              [⟨"ai", "Code review: " ++
                (if truthy ap then "Approved" else "Needs revision"), ts⟩]
            current_step :=
              if truthy ap then "security_review" else "fix_code_after_review" }
      | none => none
  | _ => none

/-- `fix_code_after_review` (lines 336–362): reads
`state["feedback"]["code_review"]` (raising if absent), replaces `code`,
appends one history entry, returns to `code_review`. -/
def fix_code_after_review (s : WState) (mres : Option Val) (ts : String) :
    Option WState :=
  match alookup s.feedback "code_review" with
  | none => none
  | some _fb =>
      match mres with
      | some (.vdict result) =>
          some { s with
            code := result
            history := s.history ++
              [⟨"ai", "Code fixed based on review feedback", ts⟩]
            current_step := "code_review" }
      | _ => none

/-- `security_review` (lines 364–401): stores the review result under
`feedback["security_review"]`, appends one history entry and branches on
`result["approved"]`. -/
def security_review (s : WState) (mres : Option Val) (ts : String) :
    Option WState :=
  match mres with
  | some (.vdict result) =>
      match alookup result "approved" with
      | some ap =>
          some { s with
            feedback := ainsert s.feedback "security_review" result
            history := s.history ++
              [⟨"ai", "Security review: " ++
                (if truthy ap then "Approved" else "Security issues found"), ts⟩]
            current_step :=
              if truthy ap then "write_test_cases" else "fix_code_after_security" }
      | none => none
  | _ => none

/-- `fix_code_after_security` (lines 403–429): reads
`state["feedback"]["security_review"]` (raising if absent), replaces `code`,
appends one history entry, returns to `security_review`. -/
def fix_code_after_security (s : WState) (mres : Option Val) (ts : String) :
    Option WState :=
  match alookup s.feedback "security_review" with
  | none => none
  | some _fb =>
      match mres with
      | some (.vdict result) =>
          some { s with
            code := result
            history := s.history ++
              [⟨"ai", "Code fixed based on security review", ts⟩]
            current_step := "security_review" }
      | _ => none

/-- `write_test_cases` (lines 431–470): replaces `test_cases` with
`result["test_cases"]`, appends one history entry, advances to
`test_cases_review`. -/
def write_test_cases (s : WState) (mres : Option Val) (ts : String) :
    Option WState :=
  match mres with
  | some (.vdict result) =>
      match alookup result "test_cases" with
      | some (.vlist tcs) =>
          some { s with
            test_cases := .vlist tcs
            history := s.history ++
              [⟨"ai", "Created " ++ toString tcs.length ++ " test cases", ts⟩]
            current_step := "test_cases_review" }
      | _ => none
  | _ => none

/-- `test_cases_review` (lines 472–509): stores the review result under
`feedback["test_cases_review"]`, appends one history entry and branches on
`result["approved"]`. -/
def test_cases_review (s : WState) (mres : Option Val) (ts : String) :
    Option WState :=
  match mres with
  | some (.vdict result) =>
      match alookup result "approved" with
      | some ap =>
          some { s with
            feedback := ainsert s.feedback "test_cases_review" result
            history := s.history ++
              [⟨"ai", "Test cases review: " ++
                (if truthy ap then "Approved" else "Needs revision"), ts⟩]
            current_step := if truthy ap then "qa_testing" else "fix_test_cases" }
      | none => none
  | _ => none

/-- `fix_test_cases` (lines 511–545): reads
`state["feedback"]["test_cases_review"]` (raising if absent), replaces
`test_cases` with `result["test_cases"]`, appends one history entry,
returns to `test_cases_review`. -/
def fix_test_cases (s : WState) (mres : Option Val) (ts : String) :
    Option WState :=
  match alookup s.feedback "test_cases_review" with
  | none => none
  | some _fb =>
      match mres with
      | some (.vdict result) =>
          match alookup result "test_cases" with
          | some tcs =>
              some { s with
                test_cases := tcs
                history := s.history ++
                  [⟨"ai", "Test cases revised based on feedback", ts⟩]
                current_step := "test_cases_review" }
          | none => none
      | _ => none

/-- `qa_testing` (lines 547–588): stores the whole parsed result as
`qa_results`, appends one history entry reading `result["passed"]` and
`result["pass_rate"]`, and branches on `result["passed"]`. -/
def qa_testing (s : WState) (mres : Option Val) (ts : String) :
    Option WState :=
  match mres with
  | some (.vdict result) =>
      match alookup result "passed", alookup result "pass_rate" with
      | some ap, some rate =>
          some { s with
            qa_results := result
            history := s.history ++
              [⟨"ai", "QA testing: " ++ (if truthy ap then "Passed" else "Failed") ++
                " with " ++ vshow rate ++ "% pass rate", ts⟩]
            current_step := if truthy ap then "deployment" else "fix_code_after_qa" }
      | _, _ => none
  | _ => none

/-- `fix_code_after_qa` (lines 590–616): reads `code` and `qa_results`
(declared fields, always present), replaces `code`, appends one history
entry, returns to `qa_testing`. -/
def fix_code_after_qa (s : WState) (mres : Option Val) (ts : String) :
    Option WState :=
  match mres with
  | some (.vdict result) =>
      some { s with
        code := result
        history := s.history ++
          [⟨"ai", "Code fixed based on QA testing results", ts⟩]
        current_step := "qa_testing" }
  | _ => none

/-- `deployment` (lines 618–650): stores the parsed result under the
*undeclared* state key `deployment_plan`, appends one history entry and
advances to `monitoring`; no declared artifact field is touched. -/
def deployment (s : WState) (mres : Option Val) (ts : String) :
    Option WState :=
  match mres with
  | some (.vdict result) =>
      some { s with
        extra := ainsert s.extra "deployment_plan" (.vdict result)
        history := s.history ++ [⟨"ai", "Deployment plan created and executed", ts⟩]
        current_step := "monitoring" }
  | _ => none

/-- `monitoring` (lines 652–683): reads `state.get("deployment_plan", {})`
(defaulting when deployment never ran), stores the parsed result under the
*undeclared* state key `monitoring_results`, appends one history entry and
advances to `maintenance`. -/
def monitoring (s : WState) (mres : Option Val) (ts : String) :
    Option WState :=
  match mres with
  | some (.vdict result) =>
      some { s with
        extra := ainsert s.extra "monitoring_results" (.vdict result)
        history := s.history ++ [⟨"ai", "Monitoring data collected and analyzed", ts⟩]
        current_step := "maintenance" }
  | _ => none

/-- `maintenance` (lines 685 ff.): the source shows the reads — `code` and
`state.get("monitoring_results", {})`, whose `user_feedback` key is then
read with a `{}` default — and the prompt/schema, but the file is truncated
before the invocation and writes.  Modelled from the spec: the tail of
`maintenance` after the `MaintenancePlan` schema is missing from the source;
per spec §4.1 a handler writes its artifact (here appending to the
append-only `maintenance_notes`), appends exactly one audit entry, and sets
`current_step` to its successor, which for `maintenance` is
`collect_requirements` (spec §4.3: maintenance loops back to
requirements). -/
def maintenance (s : WState) (mres : Option Val) (ts : String) :
    Option WState :=
  match (alookup s.extra "monitoring_results").getD (.vdict []) with
  | .vdict mon =>
      let _user_feedback := dget mon "user_feedback" (.vdict [])
      match mres with
      | some (.vdict _result) =>
          some { s with
            maintenance_notes := s.maintenance_notes ++ ["Maintenance plan created"]
            history := s.history ++ [⟨"ai", "Maintenance plan created", ts⟩]
            current_step := "collect_requirements" }
      | _ => none
  | _ => none

/-! ## The executor -/

/-- Dispatch a step identifier to its registered handler (`add_node` calls of
`create_development_workflow`); an unregistered identifier has no handler. -/
def runStep (name : String) (mres : Option Val) (ts : String) (s : WState) :
    Option WState :=
  match name with
  | "collect_requirements" => collect_requirements s mres ts
  | "generate_user_stories" => generate_user_stories s mres ts
  | "product_owner_review" => product_owner_review s mres ts
  | "revise_user_stories" => revise_user_stories s mres ts
  | "create_design_documents" => create_design_documents s mres ts
  | "design_review" => design_review s mres ts
  | "revise_design_documents" => revise_design_documents s mres ts
  | "generate_code" => generate_code s mres ts
  | "code_review" => code_review s mres ts
  | "fix_code_after_review" => fix_code_after_review s mres ts
  | "security_review" => security_review s mres ts
  | "fix_code_after_security" => fix_code_after_security s mres ts
  | "write_test_cases" => write_test_cases s mres ts
  | "test_cases_review" => test_cases_review s mres ts
  | "fix_test_cases" => fix_test_cases s mres ts
  | "qa_testing" => qa_testing s mres ts
  | "fix_code_after_qa" => fix_code_after_qa s mres ts
  | "deployment" => deployment s mres ts
  | "monitoring" => monitoring s mres ts
  | "maintenance" => maintenance s mres ts
  | _ => none

/-- The executor loop: consume one (model result, timestamp) pair per
iteration, running the handler of `current_step`; on a handler failure the
run halts and the caller is left with the state exactly as it was before the
failing handler ran. -/
def runSeq : List (Option Val × String) → WState → WState
  | [], s => s
  | (m, t) :: rest, s =>
      match runStep s.current_step m t s with
      | some s' => runSeq rest s'
      | none => s

/-- The executor loop in all-or-nothing form: `some` only when every handler
invocation succeeds. -/
def runSeqAll : List (Option Val × String) → WState → Option WState
  | [], s => some s
  | (m, t) :: rest, s =>
      match runStep s.current_step m t s with
      | some s' => runSeqAll rest s'
      | none => none

/-- The sequence of step identifiers visited by following the transition
table for `n` transitions from `name`, with the decision lambdas evaluated
on the fixed state `s` (a decision stub). -/
def walk (s : WState) : Nat → String → List String
  | 0, name => [name]
  | n + 1, name =>
      name ::
        (match resolveNext name s with
         | some t => walk s n t
         | none => [])

/-! ## Helper lemmas -/

theorem alookup_ainsert {α : Type} (kvs : List (String × α)) (k : String) (v : α) :
    alookup (ainsert kvs k v) k = some v := by
  induction kvs with
  | nil => simp [ainsert, alookup, List.find?]
  | cons hd tl ih =>
      obtain ⟨k', v'⟩ := hd
      by_cases hk : k' == k
      · simp [ainsert, hk, alookup, List.find?]
      · simp only [ainsert, hk, if_false, Bool.false_eq_true]
        simpa [alookup, List.find?, hk] using ih

theorem hist_collect_requirements {s : WState} {m : Option Val} {t : String}
    {s' : WState} (h : collect_requirements s m t = some s') :
    ∃ e, s'.history = s.history ++ [e] := by
  unfold collect_requirements at h
  repeat' split at h
  all_goals first
    | exact Option.noConfusion h
    | (injection h with h2; subst h2; exact ⟨_, rfl⟩)

theorem hist_generate_user_stories {s : WState} {m : Option Val} {t : String}
    {s' : WState} (h : generate_user_stories s m t = some s') :
    ∃ e, s'.history = s.history ++ [e] := by
  unfold generate_user_stories at h
  repeat' split at h
  all_goals first
    | exact Option.noConfusion h
    | (injection h with h2; subst h2; exact ⟨_, rfl⟩)

theorem hist_product_owner_review {s : WState} {m : Option Val} {t : String}
    {s' : WState} (h : product_owner_review s m t = some s') :
    ∃ e, s'.history = s.history ++ [e] := by
  unfold product_owner_review at h
  repeat' split at h
  all_goals first
    | exact Option.noConfusion h
    | (injection h with h2; subst h2; exact ⟨_, rfl⟩)

theorem hist_revise_user_stories {s : WState} {m : Option Val} {t : String}
    {s' : WState} (h : revise_user_stories s m t = some s') :
    ∃ e, s'.history = s.history ++ [e] := by
  unfold revise_user_stories at h
  repeat' split at h
  all_goals first
    | exact Option.noConfusion h
    | (injection h with h2; subst h2; exact ⟨_, rfl⟩)

theorem hist_create_design_documents {s : WState} {m : Option Val} {t : String}
    {s' : WState} (h : create_design_documents s m t = some s') :
    ∃ e, s'.history = s.history ++ [e] := by
  unfold create_design_documents at h
  repeat' split at h
  all_goals first
    | exact Option.noConfusion h
    | (injection h with h2; subst h2; exact ⟨_, rfl⟩)

theorem hist_design_review {s : WState} {m : Option Val} {t : String}
    {s' : WState} (h : design_review s m t = some s') :
    ∃ e, s'.history = s.history ++ [e] := by
  unfold design_review at h
  repeat' split at h
  all_goals first
    | exact Option.noConfusion h
    | (injection h with h2; subst h2; exact ⟨_, rfl⟩)

theorem hist_revise_design_documents {s : WState} {m : Option Val} {t : String}
    {s' : WState} (h : revise_design_documents s m t = some s') :
    ∃ e, s'.history = s.history ++ [e] := by
  unfold revise_design_documents at h
  repeat' split at h
  all_goals first
    | exact Option.noConfusion h
    | (injection h with h2; subst h2; exact ⟨_, rfl⟩)

theorem hist_generate_code {s : WState} {m : Option Val} {t : String}
    {s' : WState} (h : generate_code s m t = some s') :
    ∃ e, s'.history = s.history ++ [e] := by
  unfold generate_code at h
  repeat' split at h
  all_goals first
    | exact Option.noConfusion h
    | (injection h with h2; subst h2; exact ⟨_, rfl⟩)

theorem hist_code_review {s : WState} {m : Option Val} {t : String}
    {s' : WState} (h : code_review s m t = some s') :
    ∃ e, s'.history = s.history ++ [e] := by
  unfold code_review at h
  repeat' split at h
  all_goals first
    | exact Option.noConfusion h
    | (injection h with h2; subst h2; exact ⟨_, rfl⟩)

theorem hist_fix_code_after_review {s : WState} {m : Option Val} {t : String}
    {s' : WState} (h : fix_code_after_review s m t = some s') :
    ∃ e, s'.history = s.history ++ [e] := by
  unfold fix_code_after_review at h
  repeat' split at h
  all_goals first
    | exact Option.noConfusion h
    | (injection h with h2; subst h2; exact ⟨_, rfl⟩)

theorem hist_security_review {s : WState} {m : Option Val} {t : String}
    {s' : WState} (h : security_review s m t = some s') :
    ∃ e, s'.history = s.history ++ [e] := by
  unfold security_review at h
  repeat' split at h
  all_goals first
    | exact Option.noConfusion h
    | (injection h with h2; subst h2; exact ⟨_, rfl⟩)

theorem hist_fix_code_after_security {s : WState} {m : Option Val} {t : String}
    {s' : WState} (h : fix_code_after_security s m t = some s') :
    ∃ e, s'.history = s.history ++ [e] := by
  unfold fix_code_after_security at h
  repeat' split at h
  all_goals first
    | exact Option.noConfusion h
    | (injection h with h2; subst h2; exact ⟨_, rfl⟩)

theorem hist_write_test_cases {s : WState} {m : Option Val} {t : String}
    {s' : WState} (h : write_test_cases s m t = some s') :
    ∃ e, s'.history = s.history ++ [e] := by
  unfold write_test_cases at h
  repeat' split at h
  all_goals first
    | exact Option.noConfusion h
    | (injection h with h2; subst h2; exact ⟨_, rfl⟩)

theorem hist_test_cases_review {s : WState} {m : Option Val} {t : String}
    {s' : WState} (h : test_cases_review s m t = some s') :
    ∃ e, s'.history = s.history ++ [e] := by
  unfold test_cases_review at h
  repeat' split at h
  all_goals first
    | exact Option.noConfusion h
    | (injection h with h2; subst h2; exact ⟨_, rfl⟩)

theorem hist_fix_test_cases {s : WState} {m : Option Val} {t : String}
    {s' : WState} (h : fix_test_cases s m t = some s') :
    ∃ e, s'.history = s.history ++ [e] := by
  unfold fix_test_cases at h
  repeat' split at h
  all_goals first
    | exact Option.noConfusion h
    | (injection h with h2; subst h2; exact ⟨_, rfl⟩)

theorem hist_qa_testing {s : WState} {m : Option Val} {t : String}
    {s' : WState} (h : qa_testing s m t = some s') :
    ∃ e, s'.history = s.history ++ [e] := by
  unfold qa_testing at h
  repeat' split at h
  all_goals first
    | exact Option.noConfusion h
    | (injection h with h2; subst h2; exact ⟨_, rfl⟩)

theorem hist_fix_code_after_qa {s : WState} {m : Option Val} {t : String}
    {s' : WState} (h : fix_code_after_qa s m t = some s') :
    ∃ e, s'.history = s.history ++ [e] := by
  unfold fix_code_after_qa at h
  repeat' split at h
  all_goals first
    | exact Option.noConfusion h
    | (injection h with h2; subst h2; exact ⟨_, rfl⟩)

theorem hist_deployment {s : WState} {m : Option Val} {t : String}
    {s' : WState} (h : deployment s m t = some s') :
    ∃ e, s'.history = s.history ++ [e] := by
  unfold deployment at h
  repeat' split at h
  all_goals first
    | exact Option.noConfusion h
    | (injection h with h2; subst h2; exact ⟨_, rfl⟩)

theorem hist_monitoring {s : WState} {m : Option Val} {t : String}
    {s' : WState} (h : monitoring s m t = some s') :
    ∃ e, s'.history = s.history ++ [e] := by
  unfold monitoring at h
  repeat' split at h
  all_goals first
    | exact Option.noConfusion h
    | (injection h with h2; subst h2; exact ⟨_, rfl⟩)

theorem hist_maintenance {s : WState} {m : Option Val} {t : String}
    {s' : WState} (h : maintenance s m t = some s') :
    ∃ e, s'.history = s.history ++ [e] := by
  unfold maintenance at h
  repeat' split at h
  all_goals first
    | exact Option.noConfusion h
    | (injection h with h2; subst h2; exact ⟨_, rfl⟩)

/-- Every registered handler appends exactly one history entry on success. -/
theorem runStep_hist {name : String} {s : WState} {m : Option Val} {t : String}
    {s' : WState} (h : runStep name m t s = some s') :
    ∃ e, s'.history = s.history ++ [e] := by
  unfold runStep at h
  split at h
  · exact hist_collect_requirements h
  · exact hist_generate_user_stories h
  · exact hist_product_owner_review h
  · exact hist_revise_user_stories h
  · exact hist_create_design_documents h
  · exact hist_design_review h
  · exact hist_revise_design_documents h
  · exact hist_generate_code h
  · exact hist_code_review h
  · exact hist_fix_code_after_review h
  · exact hist_security_review h
  · exact hist_fix_code_after_security h
  · exact hist_write_test_cases h
  · exact hist_test_cases_review h
  · exact hist_fix_test_cases h
  · exact hist_qa_testing h
  · exact hist_fix_code_after_qa h
  · exact hist_deployment h
  · exact hist_monitoring h
  · exact hist_maintenance h
  · exact Option.noConfusion h

theorem mnone_revise_user_stories (s : WState) (ts : String) :
    revise_user_stories s none ts = none := by
  unfold revise_user_stories
  split <;> rfl

theorem mnone_revise_design_documents (s : WState) (ts : String) :
    revise_design_documents s none ts = none := by
  unfold revise_design_documents
  split <;> rfl

theorem mnone_fix_code_after_review (s : WState) (ts : String) :
    fix_code_after_review s none ts = none := by
  unfold fix_code_after_review
  split <;> rfl

theorem mnone_fix_code_after_security (s : WState) (ts : String) :
    fix_code_after_security s none ts = none := by
  unfold fix_code_after_security
  split <;> rfl

theorem mnone_fix_test_cases (s : WState) (ts : String) :
    fix_test_cases s none ts = none := by
  unfold fix_test_cases
  split <;> rfl

theorem mnone_maintenance (s : WState) (ts : String) :
    maintenance s none ts = none := by
  unfold maintenance
  split <;> rfl

/-- A failed model invocation propagates out of every registered handler. -/
theorem runStep_none (name : String) (s : WState) (ts : String) :
    runStep name none ts s = none := by
  unfold runStep
  split
  · rfl
  · rfl
  · rfl
  · exact mnone_revise_user_stories s ts
  · rfl
  · rfl
  · exact mnone_revise_design_documents s ts
  · rfl
  · rfl
  · exact mnone_fix_code_after_review s ts
  · rfl
  · exact mnone_fix_code_after_security s ts
  · rfl
  · rfl
  · exact mnone_fix_test_cases s ts
  · rfl
  · rfl
  · rfl
  · rfl
  · exact mnone_maintenance s ts
  · rfl

/-- Across a fully successful run, the history grows by exactly one entry per
handler invocation. -/
theorem runSeqAll_hist :
    ∀ (invs : List (Option Val × String)) (s s' : WState),
      runSeqAll invs s = some s' →
      s'.history.length = s.history.length + invs.length := by
  intro invs
  induction invs with
  | nil =>
      intro s s' h
      injection h with h2
      subst h2
      simp
  | cons p rest ih =>
      intro s s' h
      obtain ⟨m, t⟩ := p
      unfold runSeqAll at h
      split at h
      · rename_i s1 hstep
        obtain ⟨e, he⟩ := runStep_hist hstep
        have := ih s1 s' h
        rw [this, he]
        simp only [List.length_append, List.length_cons, List.length_nil]
        omega
      · exact Option.noConfusion h

/-! ## Concrete fixtures -/

/-- A review-result record with `approved = True`. -/
def apTrue : List (String × Val) := [("approved", Val.vbool true)]

/-- A review-result record with `approved = False`. -/
def apFalse : List (String × Val) := [("approved", Val.vbool false)]

/-- A state in which every gate's flag is approved and QA passed — the
decision stub of the happy-path scenario. -/
def happyState : WState :=
  { initState with
      feedback := [("product_owner", apTrue), ("design_review", apTrue),
                   ("code_review", apTrue), ("security_review", apTrue),
                   ("test_cases_review", apTrue)]
      qa_results := [("passed", Val.vbool true)] }

/-- A state in which every gate's flag is rejected and QA failed. -/
def rejectState : WState :=
  { initState with
      feedback := [("product_owner", apFalse), ("design_review", apFalse),
                   ("code_review", apFalse), ("security_review", apFalse),
                   ("test_cases_review", apFalse)]
      qa_results := [("passed", Val.vbool false)] }

/-- The step sequence visited from the entry step under the happy-path
decision stub, following the transition table for 14 transitions. -/
def happyTrace : List String := walk happyState 14 "collect_requirements"

/-! ## Claims -/

/-- C1.  Claimed: with the feedback (or `qa_results`) key a gate's decision
function inspects absent from the state, resolving the next step fails with
`MissingFeedbackError` and the run halts at the gate.  The code instead
evaluates `state["feedback"].get(key, {}).get("approved", False)` (and
`state["qa_results"].get("passed", False)`), so on `initState` — whose
`feedback` and `qa_results` dictionaries are empty — every gate silently
resolves to its fix/revise branch rather than failing.  This theorem
evaluates the code at the failing input. -/
theorem c1_missing_key_silently_defaults :
    resolveNext "product_owner_review" initState = some "revise_user_stories" ∧
    resolveNext "design_review" initState = some "revise_design_documents" ∧
    resolveNext "code_review" initState = some "fix_code_after_review" ∧
    resolveNext "security_review" initState = some "fix_code_after_security" ∧
    resolveNext "test_cases_review" initState = some "fix_test_cases" ∧
    resolveNext "qa_testing" initState = some "fix_code_after_qa" :=
  ⟨rfl, rfl, rfl, rfl, rfl, rfl⟩

/-- C2.  Every gate's decision function returns the gate's forward target on
a state whose relevant approval flag is true and the paired fix/revise step
on a state whose flag is false, and the two targets are distinct, with
exactly the pairings of the state-machine table. -/
theorem c2_gate_pairings :
    (∀ s : WState,
      (feedbackApproved s "product_owner" = true →
        resolveNext "product_owner_review" s = some "create_design_documents") ∧
      (feedbackApproved s "product_owner" = false →
        resolveNext "product_owner_review" s = some "revise_user_stories") ∧
      (feedbackApproved s "design_review" = true →
        resolveNext "design_review" s = some "generate_code") ∧
      (feedbackApproved s "design_review" = false →
        resolveNext "design_review" s = some "revise_design_documents") ∧
      (feedbackApproved s "code_review" = true →
        resolveNext "code_review" s = some "security_review") ∧
      (feedbackApproved s "code_review" = false →
        resolveNext "code_review" s = some "fix_code_after_review") ∧
      (feedbackApproved s "security_review" = true →
        resolveNext "security_review" s = some "write_test_cases") ∧
      (feedbackApproved s "security_review" = false →
        resolveNext "security_review" s = some "fix_code_after_security") ∧
      (feedbackApproved s "test_cases_review" = true →
        resolveNext "test_cases_review" s = some "qa_testing") ∧
      (feedbackApproved s "test_cases_review" = false →
        resolveNext "test_cases_review" s = some "fix_test_cases") ∧
      (qaPassed s = true → resolveNext "qa_testing" s = some "deployment") ∧
      (qaPassed s = false → resolveNext "qa_testing" s = some "fix_code_after_qa")) ∧
    ("create_design_documents" ≠ "revise_user_stories") ∧
    ("generate_code" ≠ "revise_design_documents") ∧
    ("security_review" ≠ "fix_code_after_review") ∧
    ("write_test_cases" ≠ "fix_code_after_security") ∧
    ("qa_testing" ≠ "fix_test_cases") ∧
    ("deployment" ≠ "fix_code_after_qa") := by
  refine ⟨fun s => ⟨?_, ?_, ?_, ?_, ?_, ?_, ?_, ?_, ?_, ?_, ?_, ?_⟩,
    by decide, by decide, by decide, by decide, by decide, by decide⟩
  all_goals intro h
  all_goals simp only [resolveNext, h, if_true, if_false, Bool.false_eq_true,
    reduceIte]

/-- C2 witness at concrete states exercising both branches of the first and
last gate. -/
theorem c2_gate_pairings_witness :
    resolveNext "product_owner_review" happyState = some "create_design_documents" ∧
    resolveNext "product_owner_review" rejectState = some "revise_user_stories" ∧
    resolveNext "qa_testing" happyState = some "deployment" ∧
    resolveNext "qa_testing" rejectState = some "fix_code_after_qa" :=
  ⟨(c2_gate_pairings.1 happyState).1 (by decide),
   (c2_gate_pairings.1 rejectState).2.1 (by decide),
   (c2_gate_pairings.1 happyState).2.2.2.2.2.2.2.2.2.2.1 (by decide),
   (c2_gate_pairings.1 rejectState).2.2.2.2.2.2.2.2.2.2.2 (by decide)⟩

/-- C3.  Every fix/revise step's outgoing edge is unconditional and returns
to its originating gate, for every state. -/
theorem c3_fix_steps_return_to_gate :
    ∀ s : WState,
      resolveNext "revise_user_stories" s = some "product_owner_review" ∧
      resolveNext "revise_design_documents" s = some "design_review" ∧
      resolveNext "fix_code_after_review" s = some "code_review" ∧
      resolveNext "fix_code_after_security" s = some "security_review" ∧
      resolveNext "fix_test_cases" s = some "test_cases_review" ∧
      resolveNext "fix_code_after_qa" s = some "qa_testing" :=
  fun _ => ⟨rfl, rfl, rfl, rfl, rfl, rfl⟩

/-- C4.  The graph is cyclic with no natural terminal state: `maintenance`
unconditionally resolves to `collect_requirements`, and for every registered
step and every state the resolved next step exists and is itself a
registered step — execution never reaches a terminal marker on its own. -/
theorem c4_cyclic_no_terminal :
    (∀ s : WState, resolveNext "maintenance" s = some "collect_requirements") ∧
    (∀ (name : String) (s : WState), name ∈ registeredSteps →
      (resolveNext name s).isSome = true ∧
      (resolveNext name s).getD "" ∈ registeredSteps) := by
  constructor
  · intro s
    rfl
  · intro name s h
    simp only [registeredSteps, List.mem_cons, List.not_mem_nil, or_false] at h
    rcases h with rfl | rfl | rfl | rfl | rfl | rfl | rfl | rfl | rfl | rfl |
      rfl | rfl | rfl | rfl | rfl | rfl | rfl | rfl | rfl | rfl
    all_goals refine ⟨rfl, ?_⟩
    all_goals simp only [resolveNext, Option.getD_some]
    all_goals first
      | decide
      | (split <;> decide)

/-- C4 witness: the hypothesis discharged at the step `deployment` on the
initial state. -/
theorem c4_cyclic_no_terminal_witness :
    (resolveNext "deployment" initState).isSome = true ∧
    (resolveNext "deployment" initState).getD "" ∈ registeredSteps :=
  c4_cyclic_no_terminal.2 "deployment" initState (by decide)

/-- C5.  `revise_user_stories` replaces `user_stories` wholesale: whatever the
prior list was, a successful invocation whose model output carries a story
list of length K leaves `user_stories` equal to exactly that list, of size
K — never a merge with the prior list. -/
theorem c5_revise_user_stories_replaces
    (s : WState) (result : List (String × Val)) (stories : List Val)
    (ts : String) (s' : WState)
    (hres : alookup result "user_stories" = some (.vlist stories))
    (hrun : revise_user_stories s (some (.vdict result)) ts = some s') :
    s'.user_stories = Val.vlist stories ∧ vlen s'.user_stories = stories.length := by
  unfold revise_user_stories at hrun
  repeat' split at hrun
  all_goals try exact Option.noConfusion hrun
  all_goals injection hrun with h2
  all_goals subst h2
  all_goals simp_all [vlen]

/-- A state with a prior one-element story list and product-owner feedback
present. -/
def c5s : WState :=
  { initState with
      feedback := [("product_owner", apFalse)]
      user_stories := Val.vlist [Val.vnull] }

/-- A model output carrying a two-element revised story list. -/
def c5res : List (String × Val) :=
  [("user_stories", Val.vlist [Val.vnull, Val.vnull])]

/-- The state produced by `revise_user_stories` on `c5s` with `c5res`. -/
def c5out : WState :=
  { c5s with
      user_stories := Val.vlist [Val.vnull, Val.vnull]
      history := [⟨"ai", "User stories revised based on feedback", "t0"⟩]
      current_step := "product_owner_review" }

/-- C5 witness: prior list of size 1, revision of size 2, result of size
exactly 2. -/
theorem c5_revise_user_stories_replaces_witness :
    alookup c5res "user_stories" = some (Val.vlist [Val.vnull, Val.vnull]) ∧
    revise_user_stories c5s (some (Val.vdict c5res)) "t0" = some c5out ∧
    c5out.user_stories = Val.vlist [Val.vnull, Val.vnull] ∧
    vlen c5out.user_stories = 2 := by
  have h := c5_revise_user_stories_replaces c5s c5res [Val.vnull, Val.vnull]
    "t0" c5out rfl rfl
  exact ⟨rfl, rfl, h.1, h.2⟩

/-- C6.  History is append-only, growing by exactly one entry per successful
handler invocation: every handler appends one record and touches no
existing entry, and a fully successful run of N invocations from an empty
history ends with `len(history) = N`. -/
theorem c6_history_append_only :
    (∀ (name : String) (s : WState) (m : Option Val) (t : String) (s' : WState),
        runStep name m t s = some s' → ∃ e, s'.history = s.history ++ [e]) ∧
    (∀ (invs : List (Option Val × String)) (s s' : WState),
        s.history = [] → runSeqAll invs s = some s' →
        s'.history.length = invs.length) := by
  refine ⟨fun name s m t s' h => runStep_hist h, fun invs s s' h0 h => ?_⟩
  have h2 := runSeqAll_hist invs s s' h
  rw [h0] at h2
  simpa using h2

/-- Two successful invocations for the C6 witness: `collect_requirements`
then `generate_user_stories`. -/
def c6run : List (Option Val × String) :=
  [(some (Val.vstr "req"), "t1"),
   (some (Val.vdict [("user_stories", Val.vlist [])]), "t2")]

/-- The state after running `c6run` from the initial state. -/
def c6end : WState :=
  { initState with
      user_inputs := [("requirements_document", Val.vstr "req")]
      user_stories := Val.vlist []
      history := [⟨"ai", "Requirements collected: req...", "t1"⟩,
                  ⟨"ai", "Generated 0 user stories", "t2"⟩]
      current_step := "product_owner_review" }

set_option maxRecDepth 8192 in
/-- C6 witness: after 2 successful invocations from an empty history,
`len(history) = 2`. -/
theorem c6_history_append_only_witness :
    runSeqAll c6run initState = some c6end ∧ c6end.history.length = 2 :=
  ⟨rfl, c6_history_append_only.2 c6run initState c6end rfl rfl⟩

/-- C7 counterexample.  The claim says each gate handler writes its review
record under the gate step's own name; `product_owner_review` instead writes
under `"product_owner"`: at a concrete input the successful handler leaves
no entry under `"product_owner_review"` and stores the record under
`"product_owner"`. -/
def c7out : WState :=
  { initState with
      feedback := [("product_owner", apTrue)]
      history := [⟨"ai", "Product owner review: Approved", "t0"⟩]
      current_step := "create_design_documents" }

/-- C7 counterexample: `product_owner_review` does not write
`feedback["product_owner_review"]`. -/
theorem c7_counterexample_po_key :
    product_owner_review initState (some (Val.vdict apTrue)) "t0" = some c7out ∧
    alookup c7out.feedback "product_owner_review" = none ∧
    alookup c7out.feedback "product_owner" = some apTrue :=
  ⟨rfl, rfl, rfl⟩

/-- C7 (amended).  Each of the five review gate handlers writes its review
record into `feedback` under exactly the key its decision function inspects
— `"product_owner"` for `product_owner_review` (not the step name), the
step's own name for the other four — and each write overwrites the prior
value for that key. -/
theorem c7_gate_feedback_keys :
    (∀ (s : WState) (result : List (String × Val)) (ts : String) (s' : WState),
        product_owner_review s (some (.vdict result)) ts = some s' →
        s'.feedback = ainsert s.feedback "product_owner" result) ∧
    (∀ (s : WState) (result : List (String × Val)) (ts : String) (s' : WState),
        design_review s (some (.vdict result)) ts = some s' →
        s'.feedback = ainsert s.feedback "design_review" result) ∧
    (∀ (s : WState) (result : List (String × Val)) (ts : String) (s' : WState),
        code_review s (some (.vdict result)) ts = some s' →
        s'.feedback = ainsert s.feedback "code_review" result) ∧
    (∀ (s : WState) (result : List (String × Val)) (ts : String) (s' : WState),
        security_review s (some (.vdict result)) ts = some s' →
        s'.feedback = ainsert s.feedback "security_review" result) ∧
    (∀ (s : WState) (result : List (String × Val)) (ts : String) (s' : WState),
        test_cases_review s (some (.vdict result)) ts = some s' →
        s'.feedback = ainsert s.feedback "test_cases_review" result) ∧
    (∀ (fb : List (String × List (String × Val))) (k : String)
        (v : List (String × Val)), alookup (ainsert fb k v) k = some v) := by
  refine ⟨?_, ?_, ?_, ?_, ?_, fun fb k v => alookup_ainsert fb k v⟩
  · intro s result ts s' h
    unfold product_owner_review at h
    repeat' split at h
    all_goals try exact Option.noConfusion h
    all_goals injection h with h2
    all_goals subst h2
    all_goals simp_all
  · intro s result ts s' h
    unfold design_review at h
    repeat' split at h
    all_goals try exact Option.noConfusion h
    all_goals injection h with h2
    all_goals subst h2
    all_goals simp_all
  · intro s result ts s' h
    unfold code_review at h
    repeat' split at h
    all_goals try exact Option.noConfusion h
    all_goals injection h with h2
    all_goals subst h2
    all_goals simp_all
  · intro s result ts s' h
    unfold security_review at h
    repeat' split at h
    all_goals try exact Option.noConfusion h
    all_goals injection h with h2
    all_goals subst h2
    all_goals simp_all
  · intro s result ts s' h
    unfold test_cases_review at h
    repeat' split at h
    all_goals try exact Option.noConfusion h
    all_goals injection h with h2
    all_goals subst h2
    all_goals simp_all

/-- C7 witness: the amended property at a concrete product-owner review. -/
theorem c7_gate_feedback_keys_witness :
    c7out.feedback = ainsert initState.feedback "product_owner" apTrue :=
  c7_gate_feedback_keys.1 initState apTrue "t0" c7out rfl

/-- C8.  When the model invocation inside a handler fails, the handler
propagates the failure (every handler's writes occur only after a
successful invocation) and the executor halts with the caller's state
exactly as it was — no artifact written, no history entry appended,
`current_step` still at the failing step. -/
theorem c8_model_failure_atomic :
    ∀ (s : WState) (ts : String) (rest : List (Option Val × String)),
      runStep s.current_step none ts s = none ∧
      runSeq ((none, ts) :: rest) s = s := by
  intro s ts rest
  refine ⟨runStep_none s.current_step s ts, ?_⟩
  unfold runSeq
  rw [runStep_none]

/-- C9 counterexample.  The happy-path walk from `collect_requirements` back
to `collect_requirements` visits 14 distinct steps, not the 8 + 3 = 11 the
claim counts. -/
theorem c9_counterexample_count :
    happyTrace =
      ["collect_requirements", "generate_user_stories", "product_owner_review",
       "create_design_documents", "design_review", "generate_code",
       "code_review", "security_review", "write_test_cases",
       "test_cases_review", "qa_testing", "deployment", "monitoring",
       "maintenance", "collect_requirements"] ∧
    happyTrace.eraseDups.length = 14 ∧ ¬ happyTrace.eraseDups.length = 11 :=
  ⟨rfl, rfl, by decide⟩

/-- C9 (amended).  Under the all-approvals decision stub, the walk from
`collect_requirements` visits exactly the 11 forward-phase steps (5
generation steps and 6 gates) plus the 3 release steps, in the order of the
state-machine table, ending back at `collect_requirements`, and no
fix/revise step is visited. -/
theorem c9_happy_path_trace :
    happyTrace =
      ["collect_requirements", "generate_user_stories", "product_owner_review",
       "create_design_documents", "design_review", "generate_code",
       "code_review", "security_review", "write_test_cases",
       "test_cases_review", "qa_testing", "deployment", "monitoring",
       "maintenance", "collect_requirements"] ∧
    happyTrace.filter (fun x => fixSteps.contains x) = [] :=
  ⟨rfl, rfl⟩

/-- C10.  `deployment` and `monitoring` store their outputs under the state
keys `deployment_plan` and `monitoring_results`, which are not among the
declared `WorkflowState` fields; `maintenance` reads `monitoring_results`
with an empty-mapping default and so succeeds even when monitoring never
ran; and `deployment` leaves every declared artifact field other than
`history` and `current_step` unchanged. -/
theorem c10_undeclared_keys_and_deployment_frame :
    ("deployment_plan" ∉ workflowStateFields ∧
     "monitoring_results" ∉ workflowStateFields) ∧
    (∀ (s : WState) (result : List (String × Val)) (ts : String),
        alookup s.extra "monitoring_results" = none →
        (maintenance s (some (.vdict result)) ts).isSome = true) ∧
    (∀ (s : WState) (m : Option Val) (ts : String) (s' : WState),
        deployment s m ts = some s' →
        s'.user_inputs = s.user_inputs ∧ s'.user_stories = s.user_stories ∧
        s'.design_documents = s.design_documents ∧ s'.code = s.code ∧
        s'.test_cases = s.test_cases ∧ s'.qa_results = s.qa_results ∧
        s'.maintenance_notes = s.maintenance_notes ∧
        s'.feedback = s.feedback) := by
  refine ⟨by decide, ?_, ?_⟩
  · intro s result ts h
    unfold maintenance
    rw [h]
    rfl
  · intro s m ts s' h
    unfold deployment at h
    repeat' split at h
    all_goals first
      | exact Option.noConfusion h
      | (injection h with h2; subst h2;
         exact ⟨rfl, rfl, rfl, rfl, rfl, rfl, rfl, rfl⟩)

/-- The state produced by `deployment` on the initial state. -/
def c10dep : WState :=
  { initState with
      extra := [("deployment_plan", Val.vdict [])]
      history := [⟨"ai", "Deployment plan created and executed", "t0"⟩]
      current_step := "monitoring" }

/-- C10 witness: `maintenance` succeeds on the initial state (where
monitoring never ran), and the deployment frame at a concrete input. -/
theorem c10_undeclared_keys_and_deployment_frame_witness :
    (maintenance initState (some (Val.vdict [])) "t0").isSome = true ∧
    deployment initState (some (Val.vdict [])) "t0" = some c10dep ∧
    c10dep.feedback = initState.feedback := by
  have h := c10_undeclared_keys_and_deployment_frame.2.2 initState
    (some (Val.vdict [])) "t0" c10dep rfl
  exact ⟨c10_undeclared_keys_and_deployment_frame.2.1 initState [] "t0" rfl,
    rfl, h.2.2.2.2.2.2.2⟩
